import Mathlib

/-!
Verification of the funds_expenses_etl normalization and fund-categorization
engine against its natural-language specification.  The Python sources under
src/src/etl are shallowly embedded below: pure string manipulation is
modelled over lists of characters, pandas column assignments become explicit
record updates, and the module-level pseudo-random generator becomes an
explicit state value.  Line references point into the repository sources.
-/

/-! ## Basic string machinery (Python str operations used by the sources) -/

/-- Whitespace test used by the model of Python `str.strip`. -/
def isWS (c : Char) : Bool :=
  c == ' ' || c == '\t' || c == '\n' || c == '\r'

/-- Model of Python `str.strip` on a character list. -/
def trimChars (cs : List Char) : List Char :=
  ((cs.dropWhile isWS).reverse.dropWhile isWS).reverse

/-- Model of Python `str.upper` for one character: ASCII letters plus the
accented Latin letters that occur in this repository. -/
def pyUpperChar (c : Char) : Char :=
  if 'a' ≤ c ∧ c ≤ 'z' then Char.ofNat (c.toNat - 32)
  else if c = 'á' then 'Á' else if c = 'à' then 'À'
  else if c = 'â' then 'Â' else if c = 'ã' then 'Ã'
  else if c = 'é' then 'É' else if c = 'ê' then 'Ê'
  else if c = 'í' then 'Í'
  else if c = 'ó' then 'Ó' else if c = 'ô' then 'Ô' else if c = 'õ' then 'Õ'
  else if c = 'ú' then 'Ú' else if c = 'ü' then 'Ü'
  else if c = 'ç' then 'Ç'
  else c

/-- Model of Python `str.upper` on whole strings. -/
def pyUpperStr (s : String) : String :=
  String.mk (s.toList.map pyUpperChar)

/-- Model of Python `str.strip` on whole strings. -/
def strTrim (s : String) : String :=
  String.mk (trimChars s.toList)

/-- Model of the Python substring test `needle in hay` on character lists. -/
def listInfix (needle : List Char) : List Char → Bool
  | [] => needle.isEmpty
  | c :: rest => needle.isPrefixOf (c :: rest) || listInfix needle rest

/-- Model of the Python substring test `needle in hay` on strings. -/
def substrB (needle hay : String) : Bool :=
  listInfix needle.toList hay.toList

/-- Fuel-driven model of Python `str.replace` (replace every non-overlapping
occurrence, scanning left to right).  The fuel is the haystack length, which
bounds the number of steps because each step consumes at least one
character. -/
def replaceAllAux (needle repl : List Char) : Nat → List Char → List Char
  | 0, hay => hay
  | _ + 1, [] => []
  | fuel + 1, c :: rest =>
    if needle.isPrefixOf (c :: rest) then
      repl ++ replaceAllAux needle repl fuel (List.drop needle.length (c :: rest))
    else
      c :: replaceAllAux needle repl fuel rest

/-- Model of Python `str.replace` on character lists. -/
def replaceAll (needle repl hay : List Char) : List Char :=
  if needle = [] then hay else replaceAllAux needle repl hay.length hay

/-- Model of Python `str.replace` on strings. -/
def strReplace (s pat repl : String) : String :=
  String.mk (replaceAll pat.toList repl.toList s.toList)

/-! ## Monetary value parser
Embeds `convert_monetary_value` from
src/src/etl/extractors/master_extractor.py lines 96-123. -/

/-- Value of a digit run, most significant first (helper for `pyFloat`). -/
def natOfDigits (cs : List Char) : Nat :=
  cs.foldl (fun a c => 10 * a + (c.toNat - 48)) 0

/-- Exact decimal number: the real value `num / 10 ^ scale`.  The decimal
strings parsed by this pipeline are represented exactly, which keeps every
operation the sources perform on them (sign tests, negation, absolute value)
computable by reduction. -/
structure DecVal where
  num : Int
  scale : Nat
deriving DecidableEq

/-- The rational value denoted by a `DecVal`. -/
def decToRat (d : DecVal) : ℚ :=
  (d.num : ℚ) / (10 : ℚ) ^ d.scale

/-- Model of the Python builtin `float` applied to a string: optional sign,
a digit run with at most one decimal dot, at least one digit overall.
Returns `none` where the Python call raises `ValueError`. -/
def pyFloat (cs : List Char) : Option DecVal :=
  let signed : Int × List Char :=
    match cs with
    | '-' :: t => (-1, t)
    | '+' :: t => (1, t)
    | _ => (1, cs)
  let ip := signed.2.takeWhile (fun c => c != '.')
  let rest := signed.2.dropWhile (fun c => c != '.')
  match rest with
  | [] =>
    if ip ≠ [] ∧ ip.all Char.isDigit then
      some ⟨signed.1 * natOfDigits ip, 0⟩
    else none
  | _ :: fp =>
    if (ip ≠ [] ∨ fp ≠ []) ∧ ip.all Char.isDigit ∧ fp.all Char.isDigit then
      some ⟨signed.1 * (natOfDigits ip * 10 ^ fp.length + natOfDigits fp), fp.length⟩
    else none

/-- Embedding of `convert_monetary_value` (master_extractor.py lines 96-123).
The input is `none` when the pandas cell is NaN.  The second component of the
result records whether the non-fatal parse warning was logged; the function
returns 0.0 in that case instead of raising. -/
def convert_monetary_value (value : Option String) : DecVal × Bool :=
  match value with
  | none => (⟨0, 0⟩, false)
  | some v =>
    if v = "" then (⟨0, 0⟩, false)
    else
      let cs := trimChars v.toList
      let isNeg := cs.contains '(' && cs.contains ')'
      let cs := replaceAll ['('] [] cs
      let cs := replaceAll [')'] [] cs
      let cs := replaceAll ['.'] [] cs
      let cs := replaceAll [','] ['.'] cs
      match pyFloat cs with
      | some x => (if isNeg then ⟨-x.num, x.scale⟩ else x, false)
      | none => (⟨0, 0⟩, true)

/-! ## Credit/debit precedence (Canonical Record Assembler)
Embeds `_normalize_master_data` lines 129-140 of master_extractor.py and
`_normalize_btg_data` lines 121-125 of btg_extractor.py. -/

/-- Embedding of the Master credit/debit resolution (master_extractor.py
lines 129-140): `valor` starts at 0 with kind Crédito; a non-zero credit sets
the value; a non-zero debit overrides it with its absolute value and kind
Débito.  The float tests `!= 0` and `abs` of the source act on the denoted
value; on the exact decimal representation they are the mantissa test
`num ≠ 0` (a decimal is zero iff its mantissa is zero) and the mantissa
absolute value. -/
def masterValor (credito debito : Option String) : DecVal × String :=
  let vc := (convert_monetary_value credito).1
  let vd := (convert_monetary_value debito).1
  let valor : DecVal := if vc.num ≠ 0 then vc else ⟨0, 0⟩
  let valor : DecVal := if vd.num ≠ 0 then ⟨|vd.num|, vd.scale⟩ else valor
  let tipo : String := if vd.num ≠ 0 then "Débito" else "Crédito"
  (valor, tipo)

/-- Embedding of the BTG amount/kind resolution (btg_extractor.py lines
121-125): kind is Crédito exactly when the parsed value is a number `≥ 0`
(NaN, modelled as `none`, compares false), then the value is replaced by its
absolute value. -/
def btgValor (valor : Option ℚ) : Option ℚ × String :=
  let tipo : String :=
    match valor with
    | some x => if 0 ≤ x then "Crédito" else "Débito"
    | none => "Débito"
  (valor.map (fun x => |x|), tipo)

/-! ## Fund-type classifier
Embeds `ExpenseTransformer._determine_fund_type` (transformer.py lines
122-227), `_determine_fic_type` (lines 381-408, the later of the two
identical declarations), `_standardize_fund_types` (lines 79-120) and
`_apply_manual_fund_type_mapping` (lines 571-643). -/

/-- Suffix list of transformer.py lines 134-138, in source order. -/
def suffixesToIgnore : List String :=
  ["RL", "- RL", "RESP LIMITADA", "RESPONSABILIDAD LIMITADA",
   "RESPONSABILIDADE LIMTADA", "RESPONSABILIDADE LIMITADA",
   "NP", "- NP", "SUBORDINADA", "- SUBORDINADA"]

/-- Suffix removal loop of transformer.py lines 141-144: for each suffix, if
it occurs, replace every occurrence with the empty string and strip. -/
def removeSuffixes (name : String) : String :=
  suffixesToIgnore.foldl
    (fun acc suf => if substrB suf acc then strTrim (strReplace acc suf "") else acc)
    name

/-- Ordered pattern table of transformer.py lines 147-198 (Python dict
literal, iterated in insertion order). -/
def patternsTable : List (String × List String) :=
  [("FIDC",
    ["FIDC",
     "FUNDO DE INVESTIMENTO EM DIREITOS CREDITÓRIOS",
     "FUNDO DE INVESTIMENTO EM DIREITOS",
     "FUNDO DE INVEST. EM DIREITOS",
     "FUNDO DE INVESTIMENTO EM DC",
     "EM DIREITOS C"]),
   ("FICFIDC",
    ["FICFIDC",
     "FIC FIDC",
     "FUNDO DE INVESTIMENTO EM COTAS DE FUNDOS DE INVESTIMENTO EM DIREITOS"]),
   ("FIC FIM",
    ["FIC FIM",
     "FC FIM",
     "FIC DE FIM",
     "FUNDO DE INVESTIMENTO EM COTAS DE FUNDO MULTIMERCADO"]),
   ("FICFIM",
    ["FICFIM",
     "FIC FIM"]),
   ("FICFIM CP",
    ["FICFIM CP",
     "FIC FIM CP",
     "FIC DE FIM CP"]),
   ("FIM",
    ["FIM",
     "FUNDO DE INVESTIMENTO MULTIMERCADO",
     "MULTIMERCADO"]),
   ("FIC",
    ["FIC",
     "FC",
     "FUNDO DE INVESTIMENTO EM COTAS"]),
   ("FIM CP",
    ["FIM CP"]),
   ("FIA",
    ["FIA",
     "FUNDO DE INVESTIMENTO EM AÇÕES"]),
   ("FICFIA",
    ["FICFIA",
     "FIC FIA",
     "FUNDO DE INVESTIMENTO EM COTAS DE FUNDO DE AÇÕES"])]

/-- Embedding of `_determine_fund_type` (transformer.py lines 122-227).
Empty input models the Python falsy/non-string guard. -/
def determineFundType (fund_name : String) : String :=
  if fund_name = "" then "Outro"
  else
    let fn := strTrim (pyUpperStr fund_name)
    let clean := removeSuffixes fn
    match patternsTable.findSome?
        (fun p => if p.2.any (fun pat => substrB pat clean) then some p.1 else none) with
    | some t => t
    | none =>
      if substrB " EM DC" clean || substrB "EM DIREITOS" clean then "FIDC"
      else if substrB "FIDC" clean then "FIDC"
      else if substrB "FIC FIM CP" clean then "FICFIM CP"
      else if substrB "FIC FIM" clean then "FICFIM"
      else if substrB "FIC" clean && substrB "FIM" clean then "FICFIM"
      else if substrB "FIM CP" clean then "FIM CP"
      else if substrB "FIM" clean then "FIM"
      else if substrB "FIC" clean then "FIC"
      else "Outro"

/-- Embedding of `_determine_fic_type` (transformer.py lines 381-408; the
second of the two identical declarations is the one in effect). -/
def determineFicType (fic_name : String) : String :=
  if fic_name = "" then "Outro"
  else
    let fn := strTrim (pyUpperStr fic_name)
    if substrB "FIC FIM CP" fn then "FICFIM CP"
    else if substrB "FIC FIM" fn then "FICFIM"
    else if substrB "FIC FIA" fn then "FICFIA"
    else if substrB "FIC" fn then "FIC"
    else if substrB "FIM CP" fn then "FIM CP"
    else if substrB "FIM" fn then "FIM"
    else if substrB "FIA" fn then "FIA"
    else "Outro"

/-- Embedding of the per-label standardization `type_mapping.get(x, x)` of
`_standardize_fund_types` (transformer.py lines 87-114).  The Python dict has
pairwise distinct keys, so the lookup is this chain of comparisons. -/
def standardizeType (x : String) : String :=
  if x = "FIC FIM" then "FICFIM"
  else if x = "FIC II" then "FIC"
  else if x = "FIM CP" then "FIM CP"
  else if x = "FICFIM CP" then "FICFIM CP"
  else if x = "FIDC" then "FIDC"
  else if x = "FICFIDC" then "FICFIDC"
  else if x = "FIP" then "FIP"
  else if x = "FIM" then "FIM"
  else if x = "FIA" then "FIA"
  else if x = "FICFIA" then "FICFIA"
  else if x = "FICFIM" then "FICFIM"
  else if x = "FIC" then "FIC"
  else x

/-- One canonical row of the transformed DataFrame, restricted to the three
columns the fund-categorization logic reads or writes: `nome_fundo`,
`TpFundo` and `nmcategorizado`. -/
structure Row where
  nome_fundo : String
  tpFundo : String
  nmcategorizado : String
deriving DecidableEq

/-- Manual override table of `_apply_manual_fund_type_mapping`
(transformer.py lines 577-616), in source order. -/
def manualMapping : List (String × String) :=
  [("ALBAREDO FIDC", "FIDC"),
   ("Z INVEST FIDC", "FIDC"),
   ("SC FUNDO DE INVESTIMENTO EM DC", "FIDC"),
   ("PRIME AGRO FIDC", "FIDC"),
   ("GRUPO PRIME AGRO FIC", "FICFIM"),
   ("GLOBAL FUTURA FIDC", "FIDC"),
   ("BASÃ", "FIDC"),
   ("BLUE ROCKET FIDC", "FIDC"),
   ("VISHNU FUNDO", "FIDC"),
   ("AF6 FIDC", "FIDC"),
   ("BELL FUNDO", "FIDC"),
   ("VERGINIA FUNDO", "FIDC"),
   ("BONTEMPO FIDC", "FIDC"),
   ("PINPAG FIDC", "FIDC"),
   ("BELLIN FIC", "FICFIM"),
   ("NINE CAPITAL FIDC", "FIDC"),
   ("NINE CAPITAL FIC", "FIC"),
   ("MASTRENN FIDC", "FIDC"),
   ("MASTRENN FIC", "FICFIM CP"),
   ("UKF FIDC", "FIDC"),
   ("UKF FIC", "FIC"),
   ("NR11 FUNDO", "FIDC"),
   ("SMT AGRO HOLDING", "FICFIM"),
   ("SMT AGRO FUNDO", "FIDC"),
   ("TERTON FUNDO", "FIDC"),
   ("ZAB LEGACY FIDC", "FIDC"),
   ("SCI SAO CR FC FIM CP", "FICFIM CP"),
   ("ARTANIS FUNDO DE INVESTIMENTO MULTIMERCA", "FIM"),
   ("GOLIATH FUNDO DE INVESTIMENTO MULTIMERCA", "FIM"),
   ("AGROCETE FUNDO DE INVESTIMENTO EM DIREIT", "FIDC"),
   ("CREDILOG II - FUNDO DE INVESTIMENTO EM D", "FIDC"),
   ("CREDILOG - FUNDO DE INVESTIMENTO EM DIRE", "FIDC"),
   ("PINPAG  FIDC - RL", "FIDC"),
   ("CAPITALIZA FUNDO DE INVESTIMENTO EM DIRE", "FIDC"),
   ("FUTURO CAPITAL FUNDO DE INVESTIMENTO EM", "FIDC"),
   ("VELSO - FUNDO DE INVESTIMENTO EM DIREITO", "FIDC"),
   ("ANVERES FUNDO DE INVESTIMENTO EM DIREITO", "FIDC")]

/-- Per-row embedding of `_apply_manual_fund_type_mapping` (transformer.py
lines 618-643): only rows whose `TpFundo` equals the sentinel "Outro" are
visited; for such a row the first table key occurring as a substring of the
uppercased fund name supplies the new type. -/
def applyManualRow (r : Row) : Row :=
  if r.tpFundo = "Outro" then
    match manualMapping.findSome?
        (fun p => if substrB p.1 (pyUpperStr r.nome_fundo) then some p.2 else none) with
    | some t => { r with tpFundo := t }
    | none => r
  else r

/-! ## Expense-category classifier
Embeds `get_categoria` inside `_categorize_expenses` (transformer.py lines
533-564). -/

/-- Category keyword table of transformer.py lines 533-546, in source
order. -/
def categoriaMap : List (String × List String) :=
  [("Taxa", ["Taxa", "Tarifa", "TAXA", "TARIFA", "TX.", "TXCUSULTORIA", "CUSTO SELIC"]),
   ("Custo", ["Custo", "CUSTO", "CUSTO_EMISNC", "COST"]),
   ("Pagamento", ["Pagamento", "PAGAMENTO", "Pagto", "PGTO"]),
   ("Transferência", ["Transferência", "TRANSFERÊNCIA", "DOC/TED", "TED", "DOC", "TRANSF"]),
   ("Operação", ["Operação", "OPERAÇÃO", "Compra", "Venda", "COMPRA", "VENDA",
                 "Aquisição", "AQUISIÇÃO", "PURCHASE"]),
   ("Resgate", ["Resgate", "RESGATE", "REDEMPTION"]),
   ("Aplicação", ["Aplicação", "APLICAÇÃO", "Aplic."]),
   ("Auditoria", ["Auditoria", "AUDITORIA", "#AUDIT", "AUDIT"]),
   ("Custódia", ["Custódia", "CUSTODIA", "CUSTODY"]),
   ("Gestão", ["Gestão", "GESTÃO"]),
   ("Liquidação", ["Liquidação", "LIQUIDAÇÃO", "LIQUIDACAO"]),
   ("Outros", [])]

/-- Embedding of `get_categoria` (transformer.py lines 549-564).  The keyword
table is scanned first; the special "LÍQUIDO NO DIA" test runs only when no
keyword matched.  `none` models a NaN/non-string cell. -/
def get_categoria (lancamento : Option String) : String :=
  match lancamento with
  | none => "Outros"
  | some l =>
    let lup := pyUpperStr l
    match categoriaMap.findSome?
        (fun p => if p.2.any (fun kw => substrB (pyUpperStr kw) lup) then some p.1 else none) with
    | some c => c
    | none =>
      if substrB "LÍQUIDO NO DIA" lup || substrB "LIQUIDO NO DIA" lup then "Balanço Diário"
      else "Outros"

/-! ## Parent/sub-fund redistribution engine
Embeds `ExpenseTransformer._categorize_funds` (transformer.py lines
229-350). -/

/-- State of the `random` module generator.  The Python engine calls
`random.seed(42)` before every shuffle, so only the constant 42 is ever
consumed; the incoming state exists to express that fact. -/
structure PRand where
  state : Nat
deriving DecidableEq

/-- Model of `random.seed` (transformer.py line 303): replaces the module
generator state with one derived from the constant seed. -/
def pySeed (n : Nat) : PRand := ⟨n⟩

/-- One step of a linear congruential generator, driving the model of
`random.shuffle`. -/
def lcgNext (s : Nat) : Nat :=
  (1103515245 * s + 12345) % 2147483648

/-- Fisher-Yates style shuffle driven by `lcgNext`; the fuel equals the list
length.  Modelled from the spec: `random.shuffle` of transformer.py line 306
applies a pseudo-random permutation that is a deterministic function of the
seeded generator state and the input list; the exact permutation of the
Mersenne Twister used by CPython is not reproduced, only those two
properties, which are the ones the specification relies on. -/
def fyAux : Nat → Nat → List Nat → List Nat
  | _, 0, l => l
  | _, _ + 1, [] => []
  | g, fuel + 1, x :: xs =>
    (x :: xs).get ⟨g % (xs.length + 1), Nat.mod_lt _ (Nat.succ_pos _)⟩ ::
      fyAux (lcgNext g) fuel ((x :: xs).eraseIdx (g % (xs.length + 1)))

/-- Model of `random.shuffle` on a list of row indices. -/
def fyShuffle (g : PRand) (l : List Nat) : List Nat :=
  fyAux g.state l.length l

/-- Model of `unicodedata.normalize` NFKD composed with ASCII encode-ignore
for one character: accented Latin capitals decompose to their base letter
followed by a combining mark that the ASCII step drops; other non-ASCII
characters are dropped entirely. -/
def foldChar (c : Char) : List Char :=
  if c = 'Á' ∨ c = 'À' ∨ c = 'Â' ∨ c = 'Ã' then ['A']
  else if c = 'É' ∨ c = 'Ê' then ['E']
  else if c = 'Í' then ['I']
  else if c = 'Ó' ∨ c = 'Ô' ∨ c = 'Õ' then ['O']
  else if c = 'Ú' ∨ c = 'Ü' then ['U']
  else if c = 'Ç' then ['C']
  else if c.toNat < 128 then [c]
  else []

/-- Embedding of `normalize_string` (transformer.py lines 252-258): strip,
uppercase, then strip diacritics via NFKD plus ASCII encode-ignore. -/
def normalizeString (s : String) : String :=
  String.mk (((trimChars s.toList).map pyUpperChar).flatMap foldChar)

/-- The bidirectional substring test of transformer.py lines 274-275. -/
def bidiMatch (fidc nome : String) : Bool :=
  substrB (normalizeString fidc) (normalizeString nome) ||
    substrB (normalizeString nome) (normalizeString fidc)

/-- Positions (DataFrame order) of the rows matched by one parent fund
(transformer.py lines 274-299, `fidc_mask` and `fidc_indices`). -/
def matchedIndices (rows : List Row) (fidc : String) : List Nat :=
  (rows.enum.filter (fun p => bidiMatch fidc p.2.nome_fundo)).map Prod.fst

/-- Row update performed for a redistributed row (transformer.py lines
327-332): `nmcategorizado` is set to the child name and `TpFundo` to the
child type. -/
def updateRow (fic : String) (r : Row) : Row :=
  { r with nmcategorizado := fic, tpFundo := determineFicType fic }

/-- Applies `f` to the row at one position, leaving other rows alone (model
of a `df.loc[idx, ...]` assignment). -/
def modifyIdx (f : Row → Row) : List Row → Nat → List Row
  | [], _ => []
  | r :: rs, 0 => f r :: rs
  | r :: rs, n + 1 => r :: modifyIdx f rs n

/-- The partition computed for one parent fund with matched row positions
`idxs` and child list `fics` (transformer.py lines 283-322).  First
component: positions that stay with the parent, i.e. `keep_indices` (the
first `max(int(N*0.5), 1)` positions of the shuffled list, line 309) together
with the tail of `distribute_indices` never covered by a child slice (line
317).  Second component: the per-child slices `distribute_indices[i*rpf :
min((i+1)*rpf, len)]` with `rpf = max(1, rows_to_distribute // num_fics)`
(lines 296 and 315-322).  The `rows_to_distribute <= 0` guard of line 292 is
the first branch (natural subtraction makes `N - keep = 0` coincide with the
Python `<= 0` test). -/
def parentPartition (idxs : List Nat) (fics : List String) : List Nat × List (List Nat) :=
  if idxs.length - max (idxs.length / 2) 1 = 0 then
    (idxs, fics.map fun _ => [])
  else
    ((fyShuffle (pySeed 42) idxs).take (max (idxs.length / 2) 1) ++
      ((fyShuffle (pySeed 42) idxs).drop (max (idxs.length / 2) 1)).drop
        (fics.length * max 1 ((idxs.length - max (idxs.length / 2) 1) / fics.length)),
     (List.range fics.length).map fun i =>
       (((fyShuffle (pySeed 42) idxs).drop (max (idxs.length / 2) 1)).drop
           (i * max 1 ((idxs.length - max (idxs.length / 2) 1) / fics.length))).take
         (max 1 ((idxs.length - max (idxs.length / 2) 1) / fics.length)))

/-- One iteration of the parent loop of `_categorize_funds` (transformer.py
lines 269-334): skip sentinel or empty child lists and parents with no
matched rows, otherwise write each child slice into the rows. -/
def processParent (rows : List Row) (fidc : String) (fics : List String) : List Row :=
  if fics.isEmpty || fics.head? = some "-" then rows
  else if (matchedIndices rows fidc).isEmpty then rows
  else
    (fics.zip (parentPartition (matchedIndices rows fidc) fics).2).foldl
      (fun acc p => p.2.foldl (fun a i => modifyIdx (updateRow p.1) a i) acc) rows

/-- Embedding of `_categorize_funds` (transformer.py lines 229-350): start
from `nmcategorizado = nome_fundo` for every row (line 266) and process the
parent entries in mapping iteration order.  The incoming generator state is
never read because `random.seed(42)` runs before every shuffle (line 303). -/
def categorizeFunds (_g0 : PRand) (rows : List Row) (mapping : List (String × List String)) :
    List Row :=
  mapping.foldl (fun acc p => processParent acc p.1 p.2)
    (rows.map fun r => { r with nmcategorizado := r.nome_fundo })

/-- The fund-typing fragment of `ExpenseTransformer.transform` (transformer.py
lines 61-72): automatic typing, redistribution, manual override, then label
standardization. -/
def transformTypes (g0 : PRand) (rows : List Row) (mapping : List (String × List String)) :
    List Row :=
  ((categorizeFunds g0 (rows.map fun r => { r with tpFundo := determineFundType r.nome_fundo })
      mapping).map applyManualRow).map
    fun r => { r with tpFundo := standardizeType r.tpFundo }

/-- The two input rows of the end-to-end scenario of spec section 8. -/
def scenarioRows : List Row :=
  [{ nome_fundo := "AROEIRA FIC FIM CP", tpFundo := "", nmcategorizado := "" },
   { nome_fundo := "SECULO FIC FIM CP", tpFundo := "", nmcategorizado := "" }]

/-- The parent-to-children mapping of the end-to-end scenario of spec
section 8. -/
def scenarioMapping : List (String × List String) :=
  [("IPÊ", ["AROEIRA FIC FIM", "SECULO FIC FIM"])]

/-! ## Helper lemmas about the shuffle and the slice decomposition -/

/-- Consing the selected element onto the list with that position erased is a
permutation of the original list. -/
lemma cons_get_eraseIdx_perm :
    ∀ (l : List Nat) (j : Nat) (h : j < l.length), (l.get ⟨j, h⟩ :: l.eraseIdx j).Perm l := by
  intro l
  induction l with
  | nil => intro j h; exact absurd h (Nat.not_lt_zero _)
  | cons x xs ih =>
    intro j h
    cases j with
    | zero => exact List.Perm.refl _
    | succ j =>
      have h' : j < xs.length := Nat.lt_of_succ_lt_succ h
      exact List.Perm.trans
        (List.Perm.swap x (xs.get ⟨j, h'⟩) (xs.eraseIdx j)) ((ih j h').cons x)

/-- Erasing a valid position shortens the list by exactly one element. -/
lemma length_eraseIdx_succ :
    ∀ (l : List Nat) (j : Nat), j < l.length → (l.eraseIdx j).length + 1 = l.length := by
  intro l
  induction l with
  | nil => intro j h; exact absurd h (Nat.not_lt_zero _)
  | cons x xs ih =>
    intro j h
    cases j with
    | zero => rfl
    | succ j =>
      have := ih j (Nat.lt_of_succ_lt_succ h)
      simp only [List.eraseIdx, List.length_cons]
      omega

/-- The shuffle kernel permutes its input whenever the fuel suffices. -/
lemma fyAux_perm : ∀ (fuel g : Nat) (l : List Nat), l.length ≤ fuel → (fyAux g fuel l).Perm l := by
  intro fuel
  induction fuel with
  | zero =>
    intro g l h
    have hl : l = [] := List.length_eq_zero.mp (Nat.le_zero.mp h)
    subst hl
    exact List.Perm.refl _
  | succ fuel ih =>
    intro g l h
    cases l with
    | nil => exact List.Perm.refl _
    | cons x xs =>
      have hj : g % (xs.length + 1) < (x :: xs).length := Nat.mod_lt _ (Nat.succ_pos _)
      have hlen : ((x :: xs).eraseIdx (g % (xs.length + 1))).length ≤ fuel := by
        have := length_eraseIdx_succ (x :: xs) _ hj
        simp only [List.length_cons] at h this
        omega
      exact List.Perm.trans ((ih (lcgNext g) _ hlen).cons _)
        (cons_get_eraseIdx_perm (x :: xs) _ hj)

/-- The modelled `random.shuffle` is a permutation of its input. -/
lemma fyShuffle_perm (g : PRand) (l : List Nat) : (fyShuffle g l).Perm l :=
  fyAux_perm l.length g.state l (Nat.le_refl _)

/-- The consecutive child slices concatenate to an initial segment of the
distribution list. -/
lemma joinSlices (l : List Nat) (r : Nat) :
    ∀ k, ((List.range k).map fun i => (l.drop (i * r)).take r).flatten = l.take (k * r) := by
  intro k
  induction k with
  | zero => simp
  | succ k ih =>
    rw [List.range_succ, List.map_append, List.flatten_append, ih]
    simp [Nat.succ_mul, List.take_add]

/-- Joining a constant-nil list gives nil. -/
lemma join_map_nil (l : List String) : ((l.map fun _ => ([] : List Nat))).flatten = [] := by
  induction l with
  | nil => rfl
  | cons x xs ih => simp [ih]

/-- Retained positions followed by the assigned slices permute the shuffled
list. -/
lemma retained_join_perm (S : List Nat) (K M : Nat) :
    ((S.take K ++ (S.drop K).drop M) ++ (S.drop K).take M).Perm S := by
  rw [List.append_assoc]
  refine List.Perm.trans (List.Perm.append_left _ List.perm_append_comm) ?_
  rw [List.take_append_drop, List.take_append_drop]

/-- A decimal value is non-negative exactly when its mantissa is. -/
lemma decToRat_nonneg (d : DecVal) : 0 ≤ decToRat d ↔ 0 ≤ d.num := by
  unfold decToRat
  rw [div_nonneg_iff]
  have hp : (0 : ℚ) < (10 : ℚ) ^ d.scale := by positivity
  constructor
  · rintro (⟨h, _⟩ | ⟨_, h⟩)
    · exact_mod_cast h
    · exact absurd hp (not_lt.mpr h)
  · intro h
    exact Or.inl ⟨by exact_mod_cast h, le_of_lt hp⟩

/-- A decimal value is zero exactly when its mantissa is. -/
lemma decToRat_eq_zero (d : DecVal) : decToRat d = 0 ↔ d.num = 0 := by
  unfold decToRat
  rw [div_eq_zero_iff]
  have hp : ((10 : ℚ) ^ d.scale) ≠ 0 := by positivity
  simp [hp]

/-- Taking the mantissa absolute value takes the absolute value of the
denoted number. -/
lemma decToRat_abs (d : DecVal) : decToRat ⟨|d.num|, d.scale⟩ = |decToRat d| := by
  unfold decToRat
  rw [abs_div, Int.cast_abs]
  congr 1
  exact (abs_of_pos (by positivity)).symm

/-! ## Claims about the redistribution engine -/

/-- C1 (counterexample): with three matched rows and two children the engine
retains only `max(int(3*0.5), 1) = 1` row, strictly fewer than
`ceil(0.5*3) = 2`, so the claimed ceil lower bound fails. -/
theorem redistribution_ceil_retention_counterexample :
    (parentPartition [0, 1, 2] ["FIC A", "FIC B"]).1.length = 1 ∧
      ¬ ((([0, 1, 2] : List Nat).length + 1) / 2 ≤
          (parentPartition [0, 1, 2] ["FIC A", "FIC B"]).1.length) := by
  decide

/-- C1 (amended): for every parent with at least one matched row and a
non-empty, non-sentinel child list, the engine retains at least
`max(floor(0.5*N), 1)` of the matched rows under the parent (the code uses
`int(N*0.5)`, which truncates); only the remaining rows are eligible for
assignment to children. -/
theorem redistribution_floor_retention (idxs : List Nat) (fics : List String)
    (h1 : 1 ≤ idxs.length) (h2 : fics ≠ []) (h3 : fics.head? ≠ some "-") :
    max (idxs.length / 2) 1 ≤ (parentPartition idxs fics).1.length := by
  unfold parentPartition
  split_ifs with hd
  · exact Nat.max_le.mpr ⟨Nat.div_le_self _ _, h1⟩
  · dsimp only
    rw [List.length_append, List.length_take, (fyShuffle_perm (pySeed 42) idxs).length_eq]
    have hK : max (idxs.length / 2) 1 ≤ idxs.length :=
      Nat.max_le.mpr ⟨Nat.div_le_self _ _, h1⟩
    omega

/-- Witness for the amended C1 bound at a concrete input. -/
theorem redistribution_floor_retention_witness :
    1 ≤ ([5, 6] : List Nat).length ∧
      max (([5, 6] : List Nat).length / 2) 1 ≤ (parentPartition [5, 6] ["FIC X"]).1.length :=
  ⟨by decide,
   redistribution_floor_retention [5, 6] ["FIC X"] (by decide) (by decide) (by decide)⟩

/-- C2: for a parent with at least one matched row and at least one child,
the positions retained with the parent plus the positions assigned across all
children add up to exactly the matched positions: the counts sum to N and the
two groups together are a permutation of the matched list, so no row is
created, lost, or duplicated by the redistribution step. -/
theorem redistribution_conservation (idxs : List Nat) (fics : List String)
    (h1 : 1 ≤ idxs.length) (h2 : fics ≠ []) :
    (parentPartition idxs fics).1.length +
        ((parentPartition idxs fics).2.map List.length).sum = idxs.length ∧
      ((parentPartition idxs fics).1 ++ (parentPartition idxs fics).2.flatten).Perm idxs := by
  have hperm :
      ((parentPartition idxs fics).1 ++ (parentPartition idxs fics).2.flatten).Perm idxs := by
    unfold parentPartition
    split_ifs with hd
    · simp [join_map_nil]
    · dsimp only
      rw [joinSlices]
      exact List.Perm.trans (retained_join_perm _ _ _) (fyShuffle_perm (pySeed 42) idxs)
  refine ⟨?_, hperm⟩
  have h := hperm.length_eq
  simpa [List.length_append, List.length_flatten] using h

/-- Witness for the C2 conservation property at a concrete input. -/
theorem redistribution_conservation_witness :
    1 ≤ ([0, 1, 2, 3] : List Nat).length ∧
      ((parentPartition [0, 1, 2, 3] ["FIC A"]).1.length +
          ((parentPartition [0, 1, 2, 3] ["FIC A"]).2.map List.length).sum =
            ([0, 1, 2, 3] : List Nat).length ∧
        ((parentPartition [0, 1, 2, 3] ["FIC A"]).1 ++
            (parentPartition [0, 1, 2, 3] ["FIC A"]).2.flatten).Perm [0, 1, 2, 3]) :=
  ⟨by decide, redistribution_conservation [0, 1, 2, 3] ["FIC A"] (by decide) (by decide)⟩

/-- C3: the redistribution engine is deterministic across runs: whatever the
incoming module generator states of the two runs are, the same rows in the
same order with the same mapping produce identical assignments, because the
engine reseeds the generator with the constant 42 before every shuffle. -/
theorem redistribution_deterministic (g1 g2 : PRand) (rows : List Row)
    (mapping : List (String × List String)) :
    categorizeFunds g1 rows mapping = categorizeFunds g2 rows mapping := rfl

/-! ## Claims about amounts, classifiers and overrides -/

/-- C4 (counterexample): a parenthesized (negative) credit with an empty
debit produces a negative amount in the Master normalization, because only
the debit branch applies an absolute value; the claimed unconditional
non-negativity of `amount` fails. -/
theorem amount_nonneg_counterexample :
    decToRat (masterValor (some "(100,00)") (some "")).1 = -100 ∧
      decToRat (masterValor (some "(100,00)") (some "")).1 < 0 ∧
      (masterValor (some "(100,00)") (some "")).2 = "Crédito" := by
  have h : masterValor (some "(100,00)") (some "") = (⟨-10000, 2⟩, "Crédito") := by decide
  rw [h]
  norm_num [decToRat]

/-- C4 (amended): the Master amount is non-negative whenever the parsed
credit value is non-negative; a non-zero debit always wins with its absolute
value and kind Débito, otherwise a non-zero credit is used as-is with kind
Crédito; and every numeric BTG amount is non-negative by construction. -/
theorem amount_sign_amended (credito debito : Option String) (v : Option ℚ) :
    (0 ≤ decToRat (convert_monetary_value credito).1 →
        0 ≤ decToRat (masterValor credito debito).1) ∧
      (decToRat (convert_monetary_value debito).1 ≠ 0 →
        decToRat (masterValor credito debito).1 =
            |decToRat (convert_monetary_value debito).1| ∧
          (masterValor credito debito).2 = "Débito") ∧
      (decToRat (convert_monetary_value debito).1 = 0 →
        decToRat (convert_monetary_value credito).1 ≠ 0 →
        (masterValor credito debito).1 = (convert_monetary_value credito).1 ∧
          (masterValor credito debito).2 = "Crédito") ∧
      (∀ q : ℚ, (btgValor v).1 = some q → 0 ≤ q) := by
  refine ⟨?_, ?_, ?_, ?_⟩
  · intro hc
    simp only [masterValor]
    split_ifs with h1 h2
    · rw [decToRat_nonneg]
      exact abs_nonneg _
    · exact hc
    · rw [decToRat_nonneg]
  · intro hd
    have hd' : (convert_monetary_value debito).1.num ≠ 0 :=
      fun h0 => hd ((decToRat_eq_zero _).mpr h0)
    simp only [masterValor, if_pos hd']
    exact ⟨decToRat_abs _, trivial⟩
  · intro hd hc
    have hd0 : (convert_monetary_value debito).1.num = 0 := (decToRat_eq_zero _).mp hd
    have hc' : (convert_monetary_value credito).1.num ≠ 0 :=
      fun h0 => hc ((decToRat_eq_zero _).mpr h0)
    simp [masterValor, hd0, hc']
  · intro q hq
    cases v with
    | none => simp [btgValor] at hq
    | some x =>
      simp only [btgValor, Option.map_some'] at hq
      have hxq : |x| = q := Option.some.inj hq
      rw [← hxq]
      exact abs_nonneg x

/-- Witness for the amended C4 statement at concrete inputs. -/
theorem amount_sign_amended_witness :
    (0 : ℚ) ≤ decToRat (masterValor (some "100,00") (some "(50,00)")).1 ∧
      decToRat (masterValor (some "100,00") (some "(50,00)")).1 =
          |decToRat (convert_monetary_value (some "(50,00)")).1| ∧
        (masterValor (some "100,00") (some "(50,00)")).2 = "Débito" :=
  ⟨(amount_sign_amended (some "100,00") (some "(50,00)") none).1
      ((decToRat_nonneg _).mpr (by decide)),
   (amount_sign_amended (some "100,00") (some "(50,00)") none).2.1
      (fun h => absurd ((decToRat_eq_zero _).mp h) (by decide))⟩

/-- C5: the name "SCI SAO CR FC FIM CP" is captured by the generic "FC FIM"
pattern, so the automatic classifier yields "FIC FIM", standardized to
"FICFIM" and not to the "FICFIM CP" label; the manual override table of the
code itself maps this exact name to "FICFIM CP", but the override never
fires because the automatic type is not the sentinel "Outro". -/
theorem sci_sao_fund_type_bug :
    determineFundType "SCI SAO CR FC FIM CP" = "FIC FIM" ∧
      standardizeType (determineFundType "SCI SAO CR FC FIM CP") = "FICFIM" ∧
      standardizeType (determineFundType "SCI SAO CR FC FIM CP") ≠ "FICFIM CP" ∧
      applyManualRow
          { nome_fundo := "SCI SAO CR FC FIM CP",
            tpFundo := determineFundType "SCI SAO CR FC FIM CP",
            nmcategorizado := "SCI SAO CR FC FIM CP" } =
        { nome_fundo := "SCI SAO CR FC FIM CP", tpFundo := "FIC FIM",
          nmcategorizado := "SCI SAO CR FC FIM CP" } ∧
      manualMapping.lookup "SCI SAO CR FC FIM CP" = some "FICFIM CP" := by
  decide

/-- C6 (counterexample): in the IPÊ scenario neither row is rewritten (the
parent matches no fund name under the bidirectional substring test), so the
categorized names stay "AROEIRA FIC FIM CP" and "SECULO FIC FIM CP" - they
do not become the child names "AROEIRA FIC FIM" and "SECULO FIC FIM" as
claimed. -/
theorem ipe_scenario_counterexample :
    ¬ ((transformTypes (pySeed 0) scenarioRows scenarioMapping).map Row.nmcategorizado =
        ["AROEIRA FIC FIM", "SECULO FIC FIM"]) := by
  decide

/-- C6 (amended): in the IPÊ scenario each row keeps its own fund name as
the categorized name (no reassignment happens because the parent "IPÊ"
matches no fund name under the bidirectional substring test), and the fund
type resolves to FICFIM for both rows. -/
theorem ipe_scenario_amended :
    (transformTypes (pySeed 0) scenarioRows scenarioMapping).map Row.nmcategorizado =
        ["AROEIRA FIC FIM CP", "SECULO FIC FIM CP"] ∧
      (transformTypes (pySeed 0) scenarioRows scenarioMapping).map Row.tpFundo =
        ["FICFIM", "FICFIM"] := by
  decide

/-- C7: the monetary parser maps "(1.234,56)" to -1234.56, "1234,56" to
1234.56 and the empty string to 0.0, and returns 0.0 with the warning flag
set (instead of raising) on the unparsable input "abc". -/
theorem monetary_parsing_examples :
    decToRat (convert_monetary_value (some "(1.234,56)")).1 = -(1234.56 : ℚ) ∧
      (convert_monetary_value (some "(1.234,56)")).2 = false ∧
      decToRat (convert_monetary_value (some "1234,56")).1 = (1234.56 : ℚ) ∧
      (convert_monetary_value (some "1234,56")).2 = false ∧
      decToRat (convert_monetary_value (some "")).1 = 0 ∧
      (convert_monetary_value (some "")).2 = false ∧
      decToRat (convert_monetary_value (some "abc")).1 = 0 ∧
      (convert_monetary_value (some "abc")).2 = true := by
  have h1 : convert_monetary_value (some "(1.234,56)") = (⟨-123456, 2⟩, false) := by decide
  have h2 : convert_monetary_value (some "1234,56") = (⟨123456, 2⟩, false) := by decide
  have h3 : convert_monetary_value (some "") = (⟨0, 0⟩, false) := by decide
  have h4 : convert_monetary_value (some "abc") = (⟨0, 0⟩, true) := by decide
  rw [h1, h2, h3, h4]
  norm_num [decToRat]

/-- If no keyword of any table entry fires, the keyword scan of
`get_categoria` returns nothing. -/
lemma scan_none_aux (u : String) :
    ∀ l : List (String × List String),
      l.all (fun p => p.2.all fun kw => ! substrB (pyUpperStr kw) u) = true →
      l.findSome?
          (fun p => if p.2.any (fun kw => substrB (pyUpperStr kw) u) then some p.1 else none) =
        none := by
  intro l
  induction l with
  | nil => intro _; rfl
  | cons p t ih =>
    intro h
    rw [List.all_cons, Bool.and_eq_true] at h
    have hp : p.2.any (fun kw => substrB (pyUpperStr kw) u) = false := by
      rw [List.any_eq_false]
      intro kw hk
      have hkw := List.all_eq_true.mp h.1 kw hk
      simp only [Bool.not_eq_true'] at hkw
      simp [hkw]
    rw [List.findSome?_cons]
    simp only [hp, Bool.false_eq_true, if_false]
    exact ih h.2

/-- C8 (counterexample): an entry text containing both a generic keyword and
the special phrase is classified by the generic table, not as "Balanço
Diário": the special case does not take precedence. -/
theorem liquido_no_dia_counterexample :
    substrB "LIQUIDO NO DIA" (pyUpperStr "TAXA LIQUIDO NO DIA") = true ∧
      get_categoria (some "TAXA LIQUIDO NO DIA") = "Taxa" ∧
      get_categoria (some "TAXA LIQUIDO NO DIA") ≠ "Balanço Diário" := by
  decide

/-- C8 (amended): an entry text containing "LÍQUIDO NO DIA" (in accented or
unaccented spelling after uppercasing) is classified "Balanço Diário"
provided no keyword of the generic category table occurs in it; the special
case is tested only after the generic table, which takes precedence. -/
theorem liquido_no_dia_amended (s : String)
    (hphrase : (substrB "LÍQUIDO NO DIA" (pyUpperStr s) ||
        substrB "LIQUIDO NO DIA" (pyUpperStr s)) = true)
    (hnokw : categoriaMap.all
        (fun p => p.2.all fun kw => ! substrB (pyUpperStr kw) (pyUpperStr s)) = true) :
    get_categoria (some s) = "Balanço Diário" := by
  simp only [get_categoria]
  rw [scan_none_aux (pyUpperStr s) categoriaMap hnokw]
  simp [hphrase]

/-- Witness for the amended C8 statement at a concrete entry text. -/
theorem liquido_no_dia_amended_witness :
    (substrB "LÍQUIDO NO DIA" (pyUpperStr "LIQUIDO NO DIA") ||
        substrB "LIQUIDO NO DIA" (pyUpperStr "LIQUIDO NO DIA")) = true ∧
      get_categoria (some "LIQUIDO NO DIA") = "Balanço Diário" :=
  ⟨by decide, liquido_no_dia_amended "LIQUIDO NO DIA" (by decide) (by decide)⟩

/-- C9: the fund-type standardization pass is idempotent: applying the label
mapping twice gives the same result as applying it once, for every input
label. -/
theorem standardize_fund_types_idempotent (x : String) :
    standardizeType (standardizeType x) = standardizeType x := by
  by_cases hx : x ∈ ["FIC FIM", "FIC II", "FIM CP", "FICFIM CP", "FIDC", "FICFIDC",
      "FIP", "FIM", "FIA", "FICFIA", "FICFIM", "FIC"]
  · fin_cases hx <;> decide
  · have h : standardizeType x = x := by
      simp only [List.mem_cons, List.not_mem_nil, or_false, not_or] at hx
      obtain ⟨h1, h2, h3, h4, h5, h6, h7, h8, h9, h10, h11, h12⟩ := hx
      simp [standardizeType, h1, h2, h3, h4, h5, h6, h7, h8, h9, h10, h11, h12]
    rw [h]
    exact h

/-- C10: the manual fund-type override only ever touches rows whose type is
the sentinel "Outro": a row already holding any other type is returned
entirely unchanged, even when its fund name matches an override key. -/
theorem manual_mapping_frame (r : Row) (h : r.tpFundo ≠ "Outro") : applyManualRow r = r := by
  unfold applyManualRow
  rw [if_neg h]

/-- Witness for C10: a row typed FIDC whose name matches the override key
"ALBAREDO FIDC" passes through the manual mapping unchanged. -/
theorem manual_mapping_frame_witness :
    (Row.mk "ALBAREDO FIDC" "FIDC" "ALBAREDO FIDC").tpFundo ≠ "Outro" ∧
      applyManualRow (Row.mk "ALBAREDO FIDC" "FIDC" "ALBAREDO FIDC") =
        Row.mk "ALBAREDO FIDC" "FIDC" "ALBAREDO FIDC" :=
  ⟨by decide, manual_mapping_frame (Row.mk "ALBAREDO FIDC" "FIDC" "ALBAREDO FIDC") (by decide)⟩
